import Mathlib

/-
Verification of the notedeck i18n localization engine
(crates/notedeck/src/i18n/manager.rs) against its specification.

The Rust code is shallowly embedded: the `Localization` struct becomes a Lean
structure, mutating methods become state-passing functions, `HashMap` fields
become association lists with insert-or-replace semantics, and Rust panics
(`expect`/`unwrap`) become the `PanicOr.panics` outcome.
-/

namespace Notedeck

/-- Outcome of a call that can abort the process: either a value, or a panic
(the Rust `expect` / `unwrap` failure path). -/
inductive PanicOr (α : Type) where
  | panics : PanicOr α
  | ok : α → PanicOr α
deriving DecidableEq, Repr

/-- Association-list lookup, the model of `HashMap::get`. -/
def alookup {α β : Type} [DecidableEq α] : List (α × β) → α → Option β
  | [], _ => none
  | (k1, v) :: rest, k => if k1 = k then some v else alookup rest k

/-- Association-list insert-or-replace, the model of `HashMap::insert`. -/
def ainsert {α β : Type} [DecidableEq α] : List (α × β) → α → β → List (α × β)
  | [], k, v => [(k, v)]
  | (k1, v1) :: rest, k, v =>
    if k1 = k then (k, v) :: rest else (k1, v1) :: ainsert rest k v

/- ## Bit-level helpers and MD5 (model of the external `md5` crate,
   used by `simple_hash`) -/

/-- Truncation to 32 bits. -/
def u32 (n : Nat) : Nat := n % 4294967296

/-- Bitwise complement within 32 bits. -/
def compl32 (n : Nat) : Nat := 4294967295 - u32 n

/-- 32-bit left rotation. -/
def rotl32 (x n : Nat) : Nat := u32 ((u32 x <<< n) ||| (u32 x >>> (32 - n)))

/-- The 64 MD5 sine-derived constants. -/
def md5K : List Nat :=
  [0xd76aa478, 0xe8c7b756, 0x242070db, 0xc1bdceee,
   0xf57c0faf, 0x4787c62a, 0xa8304613, 0xfd469501,
   0x698098d8, 0x8b44f7af, 0xffff5bb1, 0x895cd7be,
   0x6b901122, 0xfd987193, 0xa679438e, 0x49b40821,
   0xf61e2562, 0xc040b340, 0x265e5a51, 0xe9b6c7aa,
   0xd62f105d, 0x02441453, 0xd8a1e681, 0xe7d3fbc8,
   0x21e1cde6, 0xc33707d6, 0xf4d50d87, 0x455a14ed,
   0xa9e3e905, 0xfcefa3f8, 0x676f02d9, 0x8d2a4c8a,
   0xfffa3942, 0x8771f681, 0x6d9d6122, 0xfde5380c,
   0xa4beea44, 0x4bdecfa9, 0xf6bb4b60, 0xbebfbc70,
   0x289b7ec6, 0xeaa127fa, 0xd4ef3085, 0x04881d05,
   0xd9d4d039, 0xe6db99e5, 0x1fa27cf8, 0xc4ac5665,
   0xf4292244, 0x432aff97, 0xab9423a7, 0xfc93a039,
   0x655b59c3, 0x8f0ccc92, 0xffeff47d, 0x85845dd1,
   0x6fa87e4f, 0xfe2ce6e0, 0xa3014314, 0x4e0811a1,
   0xf7537e82, 0xbd3af235, 0x2ad7d2bb, 0xeb86d391]

/-- The 64 MD5 per-round shift amounts. -/
def md5S : List Nat :=
  [7, 12, 17, 22, 7, 12, 17, 22, 7, 12, 17, 22, 7, 12, 17, 22,
   5, 9, 14, 20, 5, 9, 14, 20, 5, 9, 14, 20, 5, 9, 14, 20,
   4, 11, 16, 23, 4, 11, 16, 23, 4, 11, 16, 23, 4, 11, 16, 23,
   6, 10, 15, 21, 6, 10, 15, 21, 6, 10, 15, 21, 6, 10, 15, 21]

/-- The four MD5 word registers. -/
structure MD5State where
  a : Nat
  b : Nat
  c : Nat
  d : Nat
deriving DecidableEq, Repr

/-- One of the 64 MD5 operations; `m` is the message-word schedule of the
current chunk. -/
def md5Step (m : Nat → Nat) (st : MD5State) (i : Nat) : MD5State :=
  let f :=
    if i < 16 then (st.b &&& st.c) ||| (compl32 st.b &&& st.d)
    else if i < 32 then (st.d &&& st.b) ||| (compl32 st.d &&& st.c)
    else if i < 48 then st.b ^^^ st.c ^^^ st.d
    else st.c ^^^ (st.b ||| compl32 st.d)
  let g :=
    if i < 16 then i
    else if i < 32 then (5 * i + 1) % 16
    else if i < 48 then (3 * i + 5) % 16
    else (7 * i) % 16
  let tmp := u32 (f + st.a + md5K.getD i 0 + m g)
  ⟨st.d, u32 (st.b + rotl32 tmp (md5S.getD i 0)), st.b, st.c⟩

/-- Little-endian 32-bit word number `j` of a byte list. -/
def word32LE (bytes : List Nat) (j : Nat) : Nat :=
  bytes.getD (4 * j) 0 + 256 * bytes.getD (4 * j + 1) 0 +
    65536 * bytes.getD (4 * j + 2) 0 + 16777216 * bytes.getD (4 * j + 3) 0

/-- Process one 64-byte MD5 chunk. -/
def md5Chunk (st : MD5State) (chunk : List Nat) : MD5State :=
  let st2 := (List.range 64).foldl (md5Step (fun j => word32LE chunk j)) st
  ⟨u32 (st.a + st2.a), u32 (st.b + st2.b), u32 (st.c + st2.c), u32 (st.d + st2.d)⟩

/-- MD5 padding: a 0x80 byte, zeros to 56 mod 64, then the bit length as
eight little-endian bytes. -/
def md5Pad (msg : List Nat) : List Nat :=
  let len := msg.length
  let zeros := (120 - ((len + 1) % 64)) % 64
  let bitLen := (len * 8) % 18446744073709551616
  msg ++ [128] ++ List.replicate zeros 0 ++
    (List.range 8).map (fun i => (bitLen >>> (8 * i)) % 256)

/-- The MD5 initialization vector. -/
def md5Init : MD5State := ⟨0x67452301, 0xefcdab89, 0x98badcfe, 0x10325476⟩

/-- MD5 of a byte list; the digest is the little-endian serialization of the
four result registers, so digest bytes 0 and 1 are the two low bytes of `a`. -/
def md5Bytes (msg : List Nat) : MD5State :=
  let padded := md5Pad msg
  ((List.range (padded.length / 64)).map
    (fun i => (padded.drop (64 * i)).take 64)).foldl md5Chunk md5Init

/-- UTF-8 encoding of one character, the model of Rust `str::as_bytes`
on a single char. -/
def utf8Bytes (c : Char) : List Nat :=
  let n := c.toNat
  if n < 128 then [n]
  else if n < 2048 then [192 + n / 64, 128 + n % 64]
  else if n < 65536 then [224 + n / 4096, 128 + n / 64 % 64, 128 + n % 64]
  else [240 + n / 262144, 128 + n / 4096 % 64, 128 + n / 64 % 64, 128 + n % 64]

/-- UTF-8 bytes of a string, the model of Rust `str::as_bytes`. -/
def strBytes (s : String) : List Nat := (s.data.map utf8Bytes).flatten

/-- Lowercase hexadecimal digit for a value below 16. -/
def hexDigit (n : Nat) : Char :=
  if n < 10 then Char.ofNat (48 + n) else Char.ofNat (87 + n)

/-- Two lowercase hexadecimal digits of one byte, the model of the Rust
format specifier 02x. -/
def byteHex (b : Nat) : List Char := [hexDigit (b / 16 % 16), hexDigit (b % 16)]

/-- Translation of `simple_hash`: the first two bytes of the MD5 digest of
the string, printed as four lowercase hexadecimal characters. -/
def simple_hash (s : String) : String :=
  let digest := md5Bytes (strBytes s)
  String.mk (byteHex (digest.a % 256) ++ byteHex (digest.a / 256 % 256))

/- ## Key normalization (fixup_key, insert_ftl_key) -/

/-- The character class kept verbatim by `fixup_key`: ASCII letters, ASCII
digits, hyphen and underscore. -/
def is_valid_key_char (ch : Char) : Bool :=
  (('A' ≤ ch && ch ≤ 'Z') || ('a' ≤ ch && ch ≤ 'z') ||
   ('0' ≤ ch && ch ≤ '9') || ch == '-' || ch == '_')

/-- ASCII alphabetic test, the model of `char::is_ascii_alphabetic`. -/
def isAsciiAlphaChar (ch : Char) : Bool :=
  ('A' ≤ ch && ch ≤ 'Z') || ('a' ≤ ch && ch ≤ 'z')

/-- Model of `str::trim_matches` with an underscore pattern: drop every
leading and trailing underscore. -/
def trimUnderscores (l : List Char) : List Char :=
  ((l.dropWhile (· == '_')).reverse.dropWhile (· == '_')).reverse

/-- Translation of `fixup_key`: replace each character outside the valid
class with exactly one underscore, then trim leading and trailing
underscores. -/
def fixup_key (s : String) : String :=
  String.mk (trimUnderscores
    (s.data.map (fun ch => if is_valid_key_char ch then ch else '_')))

/-- The guard in `insert_ftl_key` deciding whether the k underscore prefix is
added: the stem is empty or does not start with an ASCII letter. -/
def needsPrefix (l : List Char) : Bool :=
  match l with
  | [] => true
  | c :: _ => !(isAsciiAlphaChar c)

/-- The canonical-key computation performed by `insert_ftl_key` before the
cache insert: fixup the raw key, prefix with the fixed literal when needed,
and append an underscore plus the comment digest. -/
def normalize_key (cache_key comment : String) : String :=
  let result := (fixup_key cache_key).data
  let result := if needsPrefix result then 'k' :: '_' :: result else result
  String.mk (result ++ '_' :: (simple_hash comment).data)

/- ## Locale identifiers (model of the external `unic_langid` crate) -/

/-- Model of `unic_langid::LanguageIdentifier`: a language subtag plus
optional script, optional region and variant subtags. -/
structure LangId where
  language : String
  script : Option String
  region : Option String
  variants : List String
deriving DecidableEq, Repr

/-- The `langid!("en-US")` constant. -/
def EN_US : LangId := ⟨"en", none, some "US", []⟩

/-- The `langid!("en-XA")` constant. -/
def EN_XA : LangId := ⟨"en", none, some "XA", []⟩

/-- The `langid!("de")` constant. -/
def DE : LangId := ⟨"de", none, none, []⟩

/-- The `langid!("es-419")` constant. -/
def ES_419 : LangId := ⟨"es", none, some "419", []⟩

/-- The `langid!("es-ES")` constant. -/
def ES_ES : LangId := ⟨"es", none, some "ES", []⟩

/-- The `langid!("fr")` constant. -/
def FR : LangId := ⟨"fr", none, none, []⟩

/-- The `langid!("pt-BR")` constant. -/
def PT_BR : LangId := ⟨"pt", none, some "BR", []⟩

/-- The `langid!("th")` constant. -/
def TH : LangId := ⟨"th", none, none, []⟩

/-- The `langid!("zh-CN")` constant. -/
def ZH_CN : LangId := ⟨"zh", none, some "CN", []⟩

/-- The `langid!("zh-TW")` constant. -/
def ZH_TW : LangId := ⟨"zh", none, some "TW", []⟩

/-- The locale identifiers of the static `FTLS` table baked into the binary
(the embedded template payloads themselves are build-time assets outside the
repository sources). -/
def ftlLocales : List LangId :=
  [EN_US, EN_XA, DE, ES_419, ES_ES, FR, PT_BR, TH, ZH_CN, ZH_TW]

/-- The `available_locales` list built by `Localization::default`. -/
def availableLocales : List LangId :=
  [EN_US, EN_XA, DE, ES_419, ES_ES, FR, PT_BR, TH, ZH_CN, ZH_TW]

/-- The `locale_native_names` table built by `Localization::default`. -/
def localeNativeNames : List (LangId × String) :=
  [(EN_US, "English (US)"), (EN_XA, "Éñglísh (Pséúdólóçàlé)"), (DE, "Deutsch"),
   (ES_419, "Español (Latinoamérica)"), (ES_ES, "Español (España)"),
   (FR, "Français"), (PT_BR, "Português (Brasil)"), (TH, "ภาษาไทย"),
   (ZH_CN, "简体中文"), (ZH_TW, "繁體中文")]

/- ## Bundles, arguments, errors -/

/-- Model of a parsed Fluent message: an optional default pattern. A message
whose `value` is `none` defines only attributes and has no renderable
default pattern. -/
structure FluentMessage where
  value : Option String
deriving DecidableEq, Repr

/-- Model of `FluentBundle<FluentResource>`: the locale list given to
`FluentBundle::new`, the parsed messages, and the bidi isolation flag. -/
structure Bundle where
  locales : List LangId
  messages : List (String × FluentMessage)
  use_isolating : Bool
deriving DecidableEq, Repr

/-- Model of `FluentArgs`: named arguments for formatting. Only presence or
absence of the argument set is ever consulted by the caching discipline. -/
abbrev FluentArgs := List (String × String)

/-- Modelled from the spec: Fluent pattern formatting (in the external
`fluent` crate) renders a pattern against optional arguments and returns
best-effort text, recording placeholder problems as non-fatal diagnostics.
No claim inspects the rendered text itself, so the model returns the
pattern text. -/
def format_pattern (pattern : String) (_args : Option FluentArgs) : String :=
  pattern

/-- Translation of `IntlError` (declared in the i18n module next to the
manager): the typed error values surfaced by the engine. -/
inductive IntlError where
  | NotFound : String → IntlError
  | NoValue : String → IntlError
  | NoFtl : LangId → IntlError
  | LocaleNotAvailable : LangId → IntlError
deriving DecidableEq, Repr

/- ## The Localization engine state -/

/-- Translation of the `Localization` struct. `IntlKeyBuf` values (declared
next to the manager as a canonical-key string wrapper) are modelled as plain
strings. -/
structure Localization where
  current_locale : LangId
  available_locales : List LangId
  fallback_locale : LangId
  locale_native_names : List (LangId × String)
  string_cache : List (LangId × List (String × String))
  normalized_key_cache : List (String × String)
  bundles : List (LangId × Bundle)
  use_isolating : Bool
deriving DecidableEq, Repr

/-- Modelled from the spec: parsing one embedded FTL template source (the
`include_str!` payloads are build-time assets outside the repository, and
the Fluent parser is a third-party crate). Parsing tolerates per-entry
errors and always produces a bundle; no claim depends on the parsed message
content, so none is assumed. -/
def parse_static_ftl (lang : LangId) : Bundle := ⟨[lang], [], true⟩

/-- Translation of `Localization::load_bundle`: scan the static FTL table
for the locale; parse and return its bundle when present (parse problems
are logged, never fatal), otherwise fail with `NoFtl`. -/
def load_bundle (lang : LangId) : Except IntlError Bundle :=
  if ftlLocales.contains lang then Except.ok (parse_static_ftl lang)
  else Except.error (IntlError.NoFtl lang)

/-- Translation of `Localization::has_bundle`. -/
def has_bundle (s : Localization) (lang : LangId) : Bool :=
  (alookup s.bundles lang).isSome

/-- Translation of `Localization::try_load_bundle`: load the bundle,
propagate the isolation flag, and insert it into the bundle cache. -/
def try_load_bundle (s : Localization) (lang : LangId) :
    Except IntlError Localization :=
  match load_bundle lang with
  | Except.error e => Except.error e
  | Except.ok b =>
    let b := if !s.use_isolating then { b with use_isolating := false } else b
    Except.ok { s with bundles := ainsert s.bundles lang b }

/-- Translation of `Localization::ensure_bundle`. Note the error arm of the
source calls `self.try_load_bundle(&locale)` a second time with the same
`locale` (not with `self.fallback_locale`), then unwraps that result with
`expect`; the second call is modelled verbatim, and the `expect` failure is
the `panics` outcome. -/
def ensure_bundle (s : Localization) : PanicOr (Except IntlError Localization) :=
  let locale := s.current_locale
  if has_bundle s locale then PanicOr.ok (Except.ok s)
  else
    match try_load_bundle s locale with
    | Except.ok s1 => PanicOr.ok (Except.ok s1)
    | Except.error _ =>
      match try_load_bundle s locale with
      | Except.ok s1 => PanicOr.ok (Except.ok s1)
      | Except.error _ => PanicOr.panics

/-- Translation of `Localization::get_current_bundle`; `none` is the panic
of the `expect` inside `get_bundle` when neither lookup succeeds. -/
def get_current_bundle (s : Localization) : Option Bundle :=
  if has_bundle s s.current_locale then alookup s.bundles s.current_locale
  else alookup s.bundles s.fallback_locale

/-- Translation of `Localization::get_cached_string_no_args`: consult the
per-locale formatted-string cache; a miss is reported as `NotFound`. -/
def get_cached_string_no_args (s : Localization) (lang : LangId) (id : String) :
    Except IntlError String :=
  match alookup s.string_cache lang with
  | some locale_cache =>
    match alookup locale_cache id with
    | some cached => Except.ok cached
    | none => Except.error (IntlError.NotFound id)
  | none => Except.error (IntlError.NotFound id)

/-- Translation of `Localization::cache_string`: insert the rendered text
into the formatted-string cache of the given locale. -/
def cache_string (s : Localization) (locale : LangId) (id result : String) :
    Localization :=
  let locale_cache := (alookup s.string_cache locale).getD []
  let locale_cache := ainsert locale_cache id result
  { s with string_cache := ainsert s.string_cache locale locale_cache }

/-- Translation of `Localization::get_cached_string`: ensure the current
bundle, try the formatted-string cache for argument-free calls, otherwise
look up and format from the active bundle, caching the result only when no
arguments were supplied. -/
def get_cached_string (s : Localization) (id : String)
    (args : Option FluentArgs) :
    PanicOr (Except IntlError String × Localization) :=
  match ensure_bundle s with
  | PanicOr.panics => PanicOr.panics
  | PanicOr.ok (Except.error e) => PanicOr.ok (Except.error e, s)
  | PanicOr.ok (Except.ok s1) =>
    match args, get_cached_string_no_args s1 s1.current_locale id with
    | none, Except.ok cached => PanicOr.ok (Except.ok cached, s1)
    | _, _ =>
      match get_current_bundle s1 with
      | none => PanicOr.panics
      | some bundle =>
        match alookup bundle.messages id with
        | none => PanicOr.ok (Except.error (IntlError.NotFound id), s1)
        | some message =>
          match message.value with
          | none => PanicOr.ok (Except.error (IntlError.NoValue id), s1)
          | some pattern =>
            let result := format_pattern pattern args
            if args.isNone then
              PanicOr.ok (Except.ok result,
                cache_string s1 s1.current_locale id result)
            else
              PanicOr.ok (Except.ok result, s1)

/-- Translation of `Localization::get_string`, the no-argument convenience
over `get_cached_string`. -/
def get_string (s : Localization) (id : String) :
    PanicOr (Except IntlError String × Localization) :=
  get_cached_string s id none

/-- Translation of `Localization::set_locale`: reject a locale outside the
available set, otherwise replace the current locale and clear the whole
formatted-string cache. -/
def set_locale (s : Localization) (locale : LangId) :
    Except IntlError Unit × Localization :=
  if !(s.available_locales.contains locale) then
    (Except.error (IntlError.LocaleNotAvailable locale), s)
  else
    (Except.ok (), { s with current_locale := locale, string_cache := [] })

/-- Translation of `Localization::clear_cache`: clear the parsed-bundle and
the formatted-string caches (the source always returns `Ok(())`, so only the
state change is modelled). -/
def clear_cache (s : Localization) : Localization :=
  { s with bundles := [], string_cache := [] }

/-- Translation of `CacheStats`. -/
structure CacheStats where
  resource_cache_size : Nat
  string_cache_size : Nat
  cached_locales : List LangId
deriving DecidableEq, Repr

/-- Translation of `Localization::get_cache_stats` (the source always
returns `Ok`, so only the stats value is modelled). -/
def get_cache_stats (s : Localization) : CacheStats :=
  ⟨s.bundles.length,
   (s.string_cache.map (fun p => p.2.length)).foldl (· + ·) 0,
   s.bundles.map (·.1)⟩

/- ## Key-normalization cache operations -/

/-- Translation of `Localization::get_ftl_key`. -/
def get_ftl_key (s : Localization) (cache_key : String) : Option String :=
  alookup s.normalized_key_cache cache_key

/-- Translation of `Localization::insert_ftl_key`: compute the canonical key
and insert it into the normalized-key cache under the raw key. -/
def insert_ftl_key (s : Localization) (cache_key comment : String) :
    Localization :=
  let nk := normalize_key cache_key comment
  { s with normalized_key_cache := ainsert s.normalized_key_cache cache_key nk }

/-- Translation of `Localization::normalized_ftl_key`: return the cached
canonical key, or normalize, insert and re-read it. The source unwraps the
re-read; the lookup after the insert provably succeeds, so the `getD`
default is never used. -/
def normalized_ftl_key (s : Localization) (key comment : String) :
    String × Localization :=
  match get_ftl_key s key with
  | some intl_key => (intl_key, s)
  | none =>
    let s1 := insert_ftl_key s key comment
    ((get_ftl_key s1 key).getD "", s1)

/- ## Locale negotiation
   Model of the third-party `unic_langid` matching and parsing and of the
   `fluent_langneg` filtering negotiation, as called by
   `negotiate_system_locale_with_preferences`. -/

/-- Optional-subtag matching of `unic_langid`: a missing subtag is a
wildcard on whichever side is treated as a range, otherwise the subtags
must be equal. -/
def subtagMatches (a b : Option String) (aRange bRange : Bool) : Bool :=
  (aRange && a.isNone) || (bRange && b.isNone) || a == b

/-- Language-subtag matching of `unic_langid`; the empty language is the
`und` tag, a wildcard on a range side. -/
def languageMatches (a b : String) (aRange bRange : Bool) : Bool :=
  (aRange && a == "und") || (bRange && b == "und") || a == b

/-- Variant-list matching of `unic_langid`: an empty variant list is a
wildcard on a range side. -/
def variantsMatch (a b : List String) (aRange bRange : Bool) : Bool :=
  (aRange && a.isEmpty) || (bRange && b.isEmpty) || a == b

/-- Model of `LanguageIdentifier::matches(self, other, self_as_range,
other_as_range)` from `unic_langid`: all four subtag groups must match. -/
def langMatches (self other : LangId) (selfRange otherRange : Bool) : Bool :=
  languageMatches self.language other.language selfRange otherRange &&
  subtagMatches self.script other.script selfRange otherRange &&
  subtagMatches self.region other.region selfRange otherRange &&
  variantsMatch self.variants other.variants selfRange otherRange

/-- ASCII digit test. -/
def isAsciiDigitChar (ch : Char) : Bool := '0' ≤ ch && ch ≤ '9'

/-- Lowercased copy of a string (ASCII case mapping, as in subtag
normalization). -/
def toLowerStr (s : String) : String := String.mk (s.data.map Char.toLower)

/-- Uppercased copy of a string (ASCII case mapping, as in region subtag
normalization). -/
def toUpperStr (s : String) : String := String.mk (s.data.map Char.toUpper)

/-- Title-cased copy of a string (script subtag normalization). -/
def titleCaseStr (s : String) : String :=
  match s.data with
  | [] => ""
  | c :: rest => String.mk (Char.toUpper c :: rest.map Char.toLower)

/-- A language subtag: two to eight ASCII letters. -/
def isLanguageSubtag (t : String) : Bool :=
  2 ≤ t.length && t.length ≤ 8 && t.data.all isAsciiAlphaChar

/-- A script subtag: exactly four ASCII letters. -/
def isScriptSubtag (t : String) : Bool :=
  t.length == 4 && t.data.all isAsciiAlphaChar

/-- A region subtag: two ASCII letters or three ASCII digits. -/
def isRegionSubtag (t : String) : Bool :=
  (t.length == 2 && t.data.all isAsciiAlphaChar) ||
  (t.length == 3 && t.data.all isAsciiDigitChar)

/-- A variant subtag: five to eight alphanumerics, or four starting with a
digit. -/
def isVariantSubtag (t : String) : Bool :=
  (5 ≤ t.length && t.length ≤ 8 &&
    t.data.all (fun c => isAsciiAlphaChar c || isAsciiDigitChar c)) ||
  (t.length == 4 &&
    t.data.all (fun c => isAsciiAlphaChar c || isAsciiDigitChar c) &&
    (match t.data with
     | c :: _ => isAsciiDigitChar c
     | [] => false))

/-- Parse a run of variant subtags; any other subtag (such as an extension
singleton) makes the whole parse fail. -/
def parseVariants : List String → Option (List String)
  | [] => some []
  | t :: rest =>
    if isVariantSubtag t then
      (parseVariants rest).map (fun vs => toLowerStr t :: vs)
    else none

/-- Parse the optional region and the variants after the language and the
optional script subtag. -/
def parseRegionVariants (ts : List String) :
    Option (Option String × List String) :=
  match ts with
  | [] => some (none, [])
  | t :: rest =>
    if isRegionSubtag t then
      (parseVariants rest).map (fun vs => (some (toUpperStr t), vs))
    else
      (parseVariants ts).map (fun vs => (none, vs))

/-- Split a tag into subtags at hyphens and underscores (the separators
accepted by the `unic_langid` parser). -/
def splitSubtagsAux : List Char → List Char → List String
  | [], acc => [String.mk acc.reverse]
  | c :: rest, acc =>
    if c == '-' || c == '_' then
      String.mk acc.reverse :: splitSubtagsAux rest []
    else splitSubtagsAux rest (c :: acc)

/-- Subtags of a locale string. -/
def splitSubtags (s : String) : List String := splitSubtagsAux s.data []

/-- Model of the `unic_langid` language-identifier parser (third-party),
restricted to plain language identifiers: subtags separated by hyphen or
underscore; a language subtag, then optionally a script, a region and
variants. Extension subtags (singletons such as the letter u) are rejected,
which is why the source logs parse failures for such preference strings. -/
def parseLangId (s : String) : Option LangId :=
  match splitSubtags s with
  | [] => none
  | lang :: rest =>
    if !isLanguageSubtag lang then none
    else
      match rest with
      | [] => some ⟨toLowerStr lang, none, none, []⟩
      | t :: rest2 =>
        if isScriptSubtag t && !isRegionSubtag t then
          (parseRegionVariants rest2).map
            (fun rv => ⟨toLowerStr lang, some (titleCaseStr t), rv.1, rv.2⟩)
        else
          (parseRegionVariants rest).map
            (fun rv => ⟨toLowerStr lang, none, rv.1, rv.2⟩)

/-- One pass of the `fluent_langneg` `test_strategy!` macro under the
`Filtering` strategy: move every still-available locale matching the
request (in the fixed available order) to the supported list. The
accumulator is the pair (supported so far, still available). -/
def testStrategy (req : LangId) (selfRange otherRange : Bool)
    (acc : List LangId × List LangId) : List LangId × List LangId :=
  (acc.1 ++ acc.2.filter (fun l => langMatches l req selfRange otherRange),
   acc.2.filter (fun l => !(langMatches l req selfRange otherRange)))

/-- A locale with its variants cleared. -/
def stripVariants (l : LangId) : LangId := { l with variants := [] }

/-- A locale with its region cleared. -/
def stripRegion (l : LangId) : LangId := { l with region := none }

/-- Model of the per-request body of `fluent_langneg::filter_matches` under
the `Filtering` strategy: an exact pass, an available-as-range pass, a pass
with the request variants cleared, and a pass with the request region also
cleared. The two likely-subtags maximization passes of the crate are
disabled without its cldr feature and add nothing here. -/
def filterOneRequest (acc : List LangId × List LangId) (req : LangId) :
    List LangId × List LangId :=
  let acc := testStrategy req false false acc
  let acc := if langMatches req req true true then testStrategy req true false acc else acc
  let req2 := stripVariants req
  let acc := testStrategy req2 true true acc
  let req3 := stripRegion req2
  testStrategy req3 true true acc

/-- Model of `fluent_langneg::filter_matches` under `Filtering`. -/
def filter_matches (requested available : List LangId) : List LangId :=
  (requested.foldl filterOneRequest ([], available)).1

/-- Model of `fluent_langneg::negotiate_languages` for a non-Lookup
strategy: the filtered matches, with the default appended whenever it is
not already among them. -/
def negotiate_languages (requested available : List LangId)
    (dflt : Option LangId) : List LangId :=
  let supported := filter_matches requested available
  match dflt with
  | some d => if supported.contains d then supported else supported ++ [d]
  | none => supported

/-- Translation of
`Localization::negotiate_system_locale_with_preferences`, with the system
preference list (obtained in the source from the external `sys_locale`
crate) passed as an explicit argument: handle the empty and the
single-preference cases (the latter appends hardcoded fallback preference
strings), parse the preferences skipping failures, run the filtering
negotiation with the `en-US` default, and otherwise fall back to
primary-language matching and finally to `en-US`. -/
def negotiate_system_locale_with_preferences
    (system_locales : List String) (available_locales : List LangId) : LangId :=
  if system_locales.isEmpty then EN_US
  else
    let system_locales :=
      if system_locales.length == 1 then
        let primary := system_locales.headD ""
        let primary_lang :=
          match parseLangId primary with
          | some l => l.language
          | none => "unknown"
        if primary_lang == "uk" then system_locales ++ ["es-ES", "en-US"]
        else if primary_lang == "es" then system_locales ++ ["en-US"]
        else system_locales ++ ["en-US"]
      else system_locales
    let parsed := system_locales.filterMap parseLangId
    if parsed.isEmpty then EN_US
    else
      let negotiated := negotiate_languages parsed available_locales (some EN_US)
      match negotiated.head? with
      | some r => r
      | none =>
        match parsed.findSome?
            (fun p => available_locales.find? (fun a => a.language == p.language)) with
        | some r => r
        | none => EN_US

/- ## Example states and auxiliary definitions -/

/-- The engine state as built by `Localization::default` when negotiation
selects `en-US`, with all three caches empty. -/
def initLocalization : Localization :=
  { current_locale := EN_US, available_locales := availableLocales,
    fallback_locale := EN_US, locale_native_names := localeNativeNames,
    string_cache := [], normalized_key_cache := [], bundles := [],
    use_isolating := true }

/-- The engine state of a lookup whose current locale has no embedded FTL
resource: the language tag xx is outside the static table, while the
fallback locale is `en-US` as always. -/
def c1BadState : Localization :=
  { initLocalization with current_locale := ⟨"xx", none, none, []⟩ }

/-- An engine state whose formatted-string cache already holds the pair
(en-US, greeting) while the en-US bundle is not yet parsed. Reachable
through the public API: `cache_string` inserts into the formatted-string
cache without loading any bundle. -/
def c2BugState : Localization :=
  cache_string initLocalization EN_US "greeting" "Hello"

/-- An engine state for the C9 witness: the en-US bundle is loaded and
contains a single message that defines no default pattern. -/
def c9State : Localization :=
  { initLocalization with
      bundles := [(EN_US, ⟨[EN_US], [("attr_only", ⟨none⟩)], true⟩)] }

/-- The cache-affecting public operations between two normalizations: the
diagnostic `clear_cache` and a locale switch. -/
inductive CacheOp where
  | clearCache : CacheOp
  | setLocale : LangId → CacheOp

/-- Apply one cache-affecting operation to the engine state. -/
def applyOp (s : Localization) : CacheOp → Localization
  | CacheOp.clearCache => clear_cache s
  | CacheOp.setLocale l => (set_locale s l).2

/-- Apply a sequence of cache-affecting operations. -/
def applyOps (s : Localization) (ops : List CacheOp) : Localization :=
  ops.foldl applyOp s

/-- Lowercase-hexadecimal-digit test. -/
def isHexLowerChar (ch : Char) : Bool :=
  isAsciiDigitChar ch || ('a' ≤ ch && ch ≤ 'f')

/- ## Helper lemmas -/

theorem alookup_ainsert_self {α β : Type} [DecidableEq α]
    (xs : List (α × β)) (k : α) (v : β) :
    alookup (ainsert xs k v) k = some v := by
  induction xs with
  | nil => simp [ainsert, alookup]
  | cons hd tl ih =>
    obtain ⟨k1, v1⟩ := hd
    by_cases h : k1 = k
    · simp [ainsert, alookup, h]
    · simp [ainsert, alookup, h, ih]

theorem get_ftl_key_insert (s : Localization) (k c : String) :
    get_ftl_key (insert_ftl_key s k c) k = some (normalize_key k c) := by
  simp [get_ftl_key, insert_ftl_key, alookup_ainsert_self]

theorem try_load_bundle_frame (s : Localization) (lang : LangId) (s1 : Localization)
    (h : try_load_bundle s lang = Except.ok s1) :
    s1.string_cache = s.string_cache ∧ s1.current_locale = s.current_locale ∧
      s1.normalized_key_cache = s.normalized_key_cache := by
  unfold try_load_bundle at h
  cases hl : load_bundle lang with
  | error e => rw [hl] at h; cases h
  | ok b =>
    rw [hl] at h
    simp only [Except.ok.injEq] at h
    subst h
    exact ⟨rfl, rfl, rfl⟩

theorem ensure_bundle_frame (s : Localization) (s1 : Localization)
    (h : ensure_bundle s = PanicOr.ok (Except.ok s1)) :
    s1.string_cache = s.string_cache ∧ s1.current_locale = s.current_locale ∧
      s1.normalized_key_cache = s.normalized_key_cache := by
  unfold ensure_bundle at h
  simp only [] at h
  split at h
  · simp only [PanicOr.ok.injEq, Except.ok.injEq] at h
    rw [← h]
    exact ⟨rfl, rfl, rfl⟩
  · split at h
    · rename_i s2 h1
      simp only [PanicOr.ok.injEq, Except.ok.injEq] at h
      rw [← h]
      exact try_load_bundle_frame s s.current_locale s2 h1
    · rename_i e h1
      split at h
      · rename_i s2 h2
        simp at h2
      · simp at h

theorem ensure_bundle_of_has_bundle (s : Localization)
    (hb : has_bundle s s.current_locale = true) :
    ensure_bundle s = PanicOr.ok (Except.ok s) := by
  simp [ensure_bundle, hb]

/- ## C1 -/

/-- C1: the claim says a failed bundle load is recovered by substituting the
fallback bundle, always successfully and without a panic. The code instead
retries `try_load_bundle` with the same failed locale and unwraps the
retry with `expect`, so the call panics — even though the fallback resource
is present and loadable (third conjunct), exactly as the claim assumes. -/
theorem c1_fallback_substitution_panics :
    ensure_bundle c1BadState = PanicOr.panics ∧
      get_string c1BadState "greeting" = PanicOr.panics ∧
      load_bundle c1BadState.fallback_locale =
        Except.ok (parse_static_ftl EN_US) :=
  ⟨rfl, rfl, rfl⟩

/- ## C3 -/

/-- C3: switching to a locale in the available set succeeds, replaces the
current locale, empties the whole formatted-string cache, and leaves the
parsed-bundle cache (and the normalized-key cache) exactly as they were. -/
theorem c3_set_locale_available (s : Localization) (locale : LangId)
    (h : locale ∈ s.available_locales) :
    (set_locale s locale).1 = Except.ok () ∧
      (set_locale s locale).2.current_locale = locale ∧
      (set_locale s locale).2.string_cache = [] ∧
      (set_locale s locale).2.bundles = s.bundles ∧
      (set_locale s locale).2.normalized_key_cache = s.normalized_key_cache := by
  simp [set_locale, h]

/-- Witness for C3 at a concrete state: switching the freshly constructed
engine to `es-ES`. -/
theorem c3_set_locale_available_witness :
    (set_locale initLocalization ES_ES).1 = Except.ok () ∧
      (set_locale initLocalization ES_ES).2.current_locale = ES_ES ∧
      (set_locale initLocalization ES_ES).2.string_cache = [] ∧
      (set_locale initLocalization ES_ES).2.bundles = initLocalization.bundles ∧
      (set_locale initLocalization ES_ES).2.normalized_key_cache =
        initLocalization.normalized_key_cache :=
  c3_set_locale_available initLocalization ES_ES (by decide)

/- ## C4 -/

/-- C4: switching to a locale outside the available set fails with
`LocaleNotAvailable` and returns the engine state unchanged in every
component. -/
theorem c4_set_locale_unavailable (s : Localization) (locale : LangId)
    (h : locale ∉ s.available_locales) :
    set_locale s locale =
      (Except.error (IntlError.LocaleNotAvailable locale), s) := by
  simp [set_locale, h]

/-- Witness for C4 at a concrete state: the locale xx is not available. -/
theorem c4_set_locale_unavailable_witness :
    set_locale initLocalization ⟨"xx", none, none, []⟩ =
      (Except.error (IntlError.LocaleNotAvailable ⟨"xx", none, none, []⟩),
        initLocalization) :=
  c4_set_locale_unavailable initLocalization ⟨"xx", none, none, []⟩ (by decide)

/- ## C5 -/

/-- C5: key normalization is memoized on the raw key — normalizing the same
raw key a second time returns the identical canonical key even when the
second comment differs, for every starting engine state. -/
theorem c5_normalize_memoized (s : Localization) (raw c1 c2 : String) :
    (normalized_ftl_key (normalized_ftl_key s raw c1).2 raw c2).1 =
      (normalized_ftl_key s raw c1).1 := by
  cases h : get_ftl_key s raw with
  | some k => simp [normalized_ftl_key, h]
  | none => simp [normalized_ftl_key, h, get_ftl_key_insert]

/- ## C10 -/

theorem applyOp_normalized_key_cache (s : Localization) (op : CacheOp) :
    (applyOp s op).normalized_key_cache = s.normalized_key_cache := by
  cases op with
  | clearCache => rfl
  | setLocale l =>
    simp only [applyOp, set_locale]
    split <;> rfl

theorem applyOps_normalized_key_cache (ops : List CacheOp) :
    ∀ s : Localization,
      (applyOps s ops).normalized_key_cache = s.normalized_key_cache := by
  induction ops with
  | nil => intro s; rfl
  | cons op rest ih =>
    intro s
    calc (applyOps (applyOp s op) rest).normalized_key_cache
        = (applyOp s op).normalized_key_cache := ih (applyOp s op)
      _ = s.normalized_key_cache := applyOp_normalized_key_cache s op

theorem normalized_ftl_key_hit (t : Localization) (raw c k : String)
    (h : get_ftl_key t raw = some k) :
    normalized_ftl_key t raw c = (k, t) := by
  simp [normalized_ftl_key, h]

theorem normalized_ftl_key_lookup (s : Localization) (raw c1 : String) :
    get_ftl_key (normalized_ftl_key s raw c1).2 raw =
      some (normalized_ftl_key s raw c1).1 := by
  cases h : get_ftl_key s raw with
  | some k => simp [normalized_ftl_key, h]
  | none => simp [normalized_ftl_key, h, get_ftl_key_insert]

/-- C10: `clear_cache` empties only the parsed-bundle and formatted-string
caches and `set_locale` empties only the formatted-string cache; the
normalized-key cache survives both, so once a raw key has been normalized,
re-normalizing it after any sequence of `clear_cache` and `set_locale`
calls (with any comment) still returns the same canonical key. -/
theorem c10_normalized_key_cache_persistent (s : Localization)
    (raw c1 : String) (ops : List CacheOp) (c2 : String) :
    (∀ t : Localization, (clear_cache t).normalized_key_cache =
        t.normalized_key_cache ∧ (clear_cache t).bundles = [] ∧
        (clear_cache t).string_cache = []) ∧
      (∀ (t : Localization) (l : LangId),
        ((set_locale t l).2).normalized_key_cache = t.normalized_key_cache) ∧
      (normalized_ftl_key (applyOps (normalized_ftl_key s raw c1).2 ops) raw c2).1 =
        (normalized_ftl_key s raw c1).1 := by
  refine ⟨fun t => ⟨rfl, rfl, rfl⟩,
    fun t l => applyOp_normalized_key_cache t (CacheOp.setLocale l), ?_⟩
  have hk := normalized_ftl_key_lookup s raw c1
  have hpres := applyOps_normalized_key_cache ops (normalized_ftl_key s raw c1).2
  have hk2 : get_ftl_key (applyOps (normalized_ftl_key s raw c1).2 ops) raw =
      some (normalized_ftl_key s raw c1).1 := by
    unfold get_ftl_key at hk ⊢
    rw [hpres]
    exact hk
  rw [normalized_ftl_key_hit _ raw c2 _ hk2]

/- ## C2 -/

/-- Counterexample to C2 as stated: on this cache hit `get_string` does
return the cached text, but `ensure_bundle` runs before the cache check, so
the call parses and inserts the en-US bundle — the parsed-bundle cache is
not unchanged. -/
theorem c2_counterexample :
    get_cached_string c2BugState "greeting" none =
      PanicOr.ok (Except.ok "Hello",
        { c2BugState with bundles := [(EN_US, parse_static_ftl EN_US)] }) ∧
      ({ c2BugState with
          bundles := [(EN_US, parse_static_ftl EN_US)] }).bundles ≠
        c2BugState.bundles :=
  ⟨rfl, by decide⟩

/-- C2 as amended: on a no-argument lookup whose pair (current locale, key)
is in the formatted-string cache, `get_string` returns the cached text
without reading the bundle messages; but the bundle-ensuring step runs
first, so the whole state — the parsed-bundle cache included — is unchanged
only when the current locale already has a loaded bundle. -/
theorem c2_cache_hit_amended (s : Localization) (id txt : String)
    (hhit : get_cached_string_no_args s s.current_locale id = Except.ok txt)
    (hb : has_bundle s s.current_locale = true) :
    get_cached_string s id none = PanicOr.ok (Except.ok txt, s) := by
  unfold get_cached_string
  rw [ensure_bundle_of_has_bundle s hb]
  simp [hhit]

/-- Witness for the amended C2, at a concrete state with both the cached
string and the loaded bundle present. -/
theorem c2_cache_hit_amended_witness :
    get_cached_string
        { c2BugState with bundles := [(EN_US, parse_static_ftl EN_US)] }
        "greeting" none =
      PanicOr.ok (Except.ok "Hello",
        { c2BugState with bundles := [(EN_US, parse_static_ftl EN_US)] }) :=
  c2_cache_hit_amended
    { c2BugState with bundles := [(EN_US, parse_static_ftl EN_US)] }
    "greeting" "Hello" rfl rfl

/- ## C7 -/

/-- C7: a lookup carrying arguments never writes to the formatted-string
cache — whatever the outcome (success, either typed error, or the panic of
a missing bundle), the formatted-string cache and the cached-strings count
reported by `get_cache_stats` are exactly what they were before the call. -/
theorem c7_args_never_cached (s : Localization) (id : String)
    (a : FluentArgs) :
    match get_cached_string s id (some a) with
    | PanicOr.panics => True
    | PanicOr.ok (_, s2) =>
        s2.string_cache = s.string_cache ∧
          (get_cache_stats s2).string_cache_size =
            (get_cache_stats s).string_cache_size := by
  unfold get_cached_string
  cases hEB : ensure_bundle s with
  | panics => simp
  | ok r =>
    cases r with
    | error e => simp
    | ok s1 =>
      obtain ⟨hsc, -, -⟩ := ensure_bundle_frame s s1 hEB
      have hstats : (get_cache_stats s1).string_cache_size =
          (get_cache_stats s).string_cache_size := by
        simp [get_cache_stats, hsc]
      cases hR : get_cached_string_no_args s1 s1.current_locale id with
      | ok cached =>
        cases hGB : get_current_bundle s1 with
        | none => simp [hGB]
        | some bundle =>
          cases hM : alookup bundle.messages id with
          | none => simp [hGB, hM, hsc, hstats]
          | some message =>
            cases hV : message.value with
            | none => simp [hGB, hM, hV, hsc, hstats]
            | some pattern => simp [hGB, hM, hV, hsc, hstats]
      | error e =>
        cases hGB : get_current_bundle s1 with
        | none => simp [hGB]
        | some bundle =>
          cases hM : alookup bundle.messages id with
          | none => simp [hGB, hM, hsc, hstats]
          | some message =>
            cases hV : message.value with
            | none => simp [hGB, hM, hV, hsc, hstats]
            | some pattern => simp [hGB, hM, hV, hsc, hstats]

/- ## C8 -/

/-- C8: with host preferences limited to es-MX and the available set
consisting of en-US and es-ES, the negotiated locale is es-ES — the first
available locale sharing the primary language subtag of the highest
preference, even though no exact match exists. -/
theorem c8_primary_language_fallback_example :
    negotiate_system_locale_with_preferences ["es-MX"] [EN_US, ES_ES] =
      ES_ES := by
  decide

/- ## C9 -/

/-- C9: a lookup that reaches the active bundle (formatted-string cache
miss, or arguments present) fails with `NotFound` when the canonical key is
absent from the bundle, and with `NoValue` when the key is present but its
message has no default renderable pattern; in both cases no text is
returned and the state is unchanged. -/
theorem c9_bundle_lookup_errors (s : Localization) (id : String)
    (args : Option FluentArgs) (b : Bundle)
    (hmiss : args = none →
      ∀ t, get_cached_string_no_args s s.current_locale id ≠ Except.ok t)
    (hb : alookup s.bundles s.current_locale = some b) :
    (alookup b.messages id = none →
      get_cached_string s id args =
        PanicOr.ok (Except.error (IntlError.NotFound id), s)) ∧
      (∀ m, alookup b.messages id = some m → m.value = none →
        get_cached_string s id args =
          PanicOr.ok (Except.error (IntlError.NoValue id), s)) := by
  have hhb : has_bundle s s.current_locale = true := by
    simp [has_bundle, hb]
  have hEB : ensure_bundle s = PanicOr.ok (Except.ok s) :=
    ensure_bundle_of_has_bundle s hhb
  have hGB : get_current_bundle s = some b := by
    simp [get_current_bundle, hhb, hb]
  constructor
  · intro hM
    unfold get_cached_string
    rw [hEB]
    cases args with
    | none =>
      cases hR : get_cached_string_no_args s s.current_locale id with
      | ok t => exact absurd hR (hmiss rfl t)
      | error e => simp [hGB, hM, hR]
    | some a => simp [hGB, hM]
  · intro m hM hV
    unfold get_cached_string
    rw [hEB]
    cases args with
    | none =>
      cases hR : get_cached_string_no_args s s.current_locale id with
      | ok t => exact absurd hR (hmiss rfl t)
      | error e => simp [hGB, hM, hV, hR]
    | some a => simp [hGB, hM, hV]

/-- Witness for C9 at concrete inputs: a key absent from the bundle yields
`NotFound`, and the pattern-less message yields `NoValue`. -/
theorem c9_bundle_lookup_errors_witness :
    get_cached_string c9State "does_not_exist" none =
        PanicOr.ok (Except.error (IntlError.NotFound "does_not_exist"),
          c9State) ∧
      get_cached_string c9State "attr_only" none =
        PanicOr.ok (Except.error (IntlError.NoValue "attr_only"), c9State) :=
  ⟨(c9_bundle_lookup_errors c9State "does_not_exist" none
      ⟨[EN_US], [("attr_only", ⟨none⟩)], true⟩
      (fun _ t h => by simp [get_cached_string_no_args, c9State,
        initLocalization, alookup] at h) rfl).1 rfl,
   (c9_bundle_lookup_errors c9State "attr_only" none
      ⟨[EN_US], [("attr_only", ⟨none⟩)], true⟩
      (fun _ t h => by simp [get_cached_string_no_args, c9State,
        initLocalization, alookup] at h) rfl).2 ⟨none⟩ rfl rfl⟩

/- ## C6 -/

theorem mem_of_mem_dropWhile {α : Type} (p : α → Bool) :
    ∀ {l : List α} {c : α}, c ∈ l.dropWhile p → c ∈ l := by
  intro l
  induction l with
  | nil => intro c h; simp [List.dropWhile] at h
  | cons hd tl ih =>
    intro c h
    by_cases hp : p hd
    · simp only [List.dropWhile, hp] at h
      exact List.mem_cons_of_mem hd (ih h)
    · simp only [List.dropWhile, hp] at h
      exact h

theorem mem_of_mem_trimUnderscores {c : Char} {l : List Char}
    (h : c ∈ trimUnderscores l) : c ∈ l := by
  unfold trimUnderscores at h
  rw [List.mem_reverse] at h
  have h2 := mem_of_mem_dropWhile _ h
  rw [List.mem_reverse] at h2
  exact mem_of_mem_dropWhile _ h2

theorem fixup_key_chars (s : String) :
    ∀ ch ∈ (fixup_key s).data, is_valid_key_char ch = true := by
  intro ch h
  have h1 : ch ∈ trimUnderscores
      (s.data.map (fun c => if is_valid_key_char c then c else '_')) := h
  have h2 := mem_of_mem_trimUnderscores h1
  rcases List.mem_map.mp h2 with ⟨c0, -, hrepl⟩
  by_cases hv : is_valid_key_char c0
  · rw [if_pos hv] at hrepl
    rw [← hrepl]
    exact hv
  · rw [if_neg hv] at hrepl
    rw [← hrepl]
    decide

theorem hexDigit_valid (n : Nat) (h : n < 16) :
    is_valid_key_char (hexDigit n) = true ∧
      isHexLowerChar (hexDigit n) = true := by
  interval_cases n <;> exact ⟨by decide, by decide⟩

theorem byteHex_chars (b : Nat) :
    ∀ ch ∈ byteHex b, is_valid_key_char ch = true ∧
      isHexLowerChar ch = true := by
  intro ch h
  simp only [byteHex, List.mem_cons, List.not_mem_nil, or_false] at h
  rcases h with h | h <;> rw [h]
  · exact hexDigit_valid _ (Nat.mod_lt _ (by norm_num))
  · exact hexDigit_valid _ (Nat.mod_lt _ (by norm_num))

theorem simple_hash_len (c : String) : (simple_hash c).data.length = 4 := by
  show (byteHex _ ++ byteHex _).length = 4
  simp [byteHex]

theorem simple_hash_chars (c : String) :
    ∀ ch ∈ (simple_hash c).data, is_valid_key_char ch = true ∧
      isHexLowerChar ch = true := by
  intro ch h
  have h1 : ch ∈ byteHex ((md5Bytes (strBytes c)).a % 256) ++
      byteHex ((md5Bytes (strBytes c)).a / 256 % 256) := h
  rcases List.mem_append.mp h1 with h2 | h2
  · exact byteHex_chars _ ch h2
  · exact byteHex_chars _ ch h2

theorem normalize_key_invariants (raw comment : String) :
    (normalize_key raw comment).data ≠ [] ∧
      isAsciiAlphaChar ((normalize_key raw comment).data.headD '0') = true ∧
      ∀ ch ∈ (normalize_key raw comment).data, is_valid_key_char ch = true := by
  have hd : (normalize_key raw comment).data =
      (if needsPrefix (fixup_key raw).data then
        'k' :: '_' :: (fixup_key raw).data
      else (fixup_key raw).data) ++ '_' :: (simple_hash comment).data := rfl
  cases hN : needsPrefix (fixup_key raw).data with
  | true =>
    rw [hd, hN, if_pos rfl]
    refine ⟨by simp, by simp only [List.cons_append, List.headD_cons]; decide, ?_⟩
    intro ch h
    simp only [List.cons_append, List.mem_cons, List.mem_append] at h
    rcases h with h | h | h | h | h
    · rw [h]; decide
    · rw [h]; decide
    · exact fixup_key_chars raw ch h
    · rw [h]; decide
    · exact (simple_hash_chars comment ch h).1
  | false =>
    cases hstem : (fixup_key raw).data with
    | nil => rw [hstem] at hN; simp [needsPrefix] at hN
    | cons c0 rest =>
      have halpha : isAsciiAlphaChar c0 = true := by
        rw [hstem] at hN
        simpa [needsPrefix] using hN
      rw [hd, hN, if_neg (by simp), hstem]
      refine ⟨by simp, by simpa using halpha, ?_⟩
      intro ch h
      simp only [List.cons_append, List.mem_cons, List.mem_append] at h
      rcases h with h | h | h | h
      · rw [h]
        exact fixup_key_chars raw c0 (by rw [hstem]; exact List.mem_cons_self c0 rest)
      · exact fixup_key_chars raw ch (by rw [hstem]; exact List.mem_cons_of_mem c0 h)
      · rw [h]; decide
      · exact (simple_hash_chars comment ch h).1

/-- C6: the first normalization of a raw key computes the canonical key via
`normalize_key` — one-for-one underscore substitution, underscore trimming,
the fixed k underscore prefix when the stem is empty or does not start with
a letter, and an appended underscore plus the four-character lowercase
hexadecimal digest of the comment — it never fails (the function is total),
and the canonical key always begins with an ASCII letter and contains only
letters, digits, hyphens and underscores. -/
theorem c6_first_normalization (s : Localization) (raw comment : String)
    (h : get_ftl_key s raw = none) :
    (normalized_ftl_key s raw comment).1 = normalize_key raw comment ∧
      (normalize_key raw comment).data ≠ [] ∧
      isAsciiAlphaChar ((normalize_key raw comment).data.headD '0') = true ∧
      (∀ ch ∈ (normalize_key raw comment).data,
        is_valid_key_char ch = true) ∧
      (simple_hash comment).data.length = 4 ∧
      (∀ ch ∈ (simple_hash comment).data, isHexLowerChar ch = true) := by
  obtain ⟨h1, h2, h3⟩ := normalize_key_invariants raw comment
  refine ⟨?_, h1, h2, h3, simple_hash_len comment,
    fun ch hch => (simple_hash_chars comment ch hch).2⟩
  simp [normalized_ftl_key, h, get_ftl_key_insert]

/-- Witness for C6: the first normalization of the raw key
Hello comma space World exclamation with the comment greeting, on the
freshly constructed engine. -/
theorem c6_first_normalization_witness :
    (normalized_ftl_key initLocalization "Hello, World!" "greeting").1 =
        normalize_key "Hello, World!" "greeting" ∧
      (normalize_key "Hello, World!" "greeting").data ≠ [] ∧
      isAsciiAlphaChar
        ((normalize_key "Hello, World!" "greeting").data.headD '0') = true ∧
      (∀ ch ∈ (normalize_key "Hello, World!" "greeting").data,
        is_valid_key_char ch = true) ∧
      (simple_hash "greeting").data.length = 4 ∧
      (∀ ch ∈ (simple_hash "greeting").data, isHexLowerChar ch = true) :=
  c6_first_normalization initLocalization "Hello, World!" "greeting" rfl

end Notedeck

